import Mathlib

/-!
Shallow embedding of `gcp-to-fleet-sync.py`, a reconciler that keeps Elastic
Fleet integration policies in sync with the set of active GCP projects, and
proofs about its reconciliation core.

Python dicts whose payloads matter (integration policy bodies) are modelled as
association lists `List (String × Val)` with string leaves and nested dicts;
the `agent_gcp_projects` map (GCP project id → package policy id) is a
`List (String × String)` in insertion order, mirroring Python dict key order.
Network writes are modelled as returned request traces; the per-request HTTP
status comes from an oracle function so that control flow can be checked to be
independent of it.  The SQLite revision table is a `List Int` (the single
`revision` column), and statements executed against it are traced as
`DBWrite` values.
-/

namespace GcpFleetSync

/-- Values stored in the duck-typed dict payloads of the Python source: either
a string leaf or a nested dict represented as an association list. -/
inductive Val where
  | str : String → Val
  | dict : List (String × Val) → Val

/-- Association-list model of a Python dict holding policy bodies. -/
abbrev Dict := List (String × Val)

/-- Reading `d[k]`: first binding of key `k`, if any. -/
def dictGet (d : Dict) (k : String) : Option Val :=
  (d.find? (fun p => p.1 == k)).map (fun p => p.2)

/-- Python `d[k] = v`: replace the binding in place if the key exists,
otherwise append a new binding at the end (dict insertion order). -/
def dictSet (d : Dict) (k : String) (v : Val) : Dict :=
  if d.any (fun p => p.1 == k) then
    d.map (fun p => if p.1 == k then (k, v) else p)
  else
    d ++ [(k, v)]

/-- Python `d.pop(k, None)`: drop the binding for `k`, if present. -/
def dictPop (d : Dict) (k : String) : Dict :=
  d.filter (fun p => !(p.1 == k))

/-- Keys removed by `prep_integration_policy` (line 87 of the source). -/
def strippedKeys : List String :=
  ["id", "version", "revision", "created_at", "created_by", "updated_at", "updated_by"]

/-- Lines 85-91: pop each of the seven server-assigned keys from the policy
dict and return it. -/
def prep_integration_policy (integration_policy : Dict) : Dict :=
  strippedKeys.foldl (fun d key => dictPop d key) integration_policy

/-- Lines 98 and 130: the nested assignment
`integration_policy[vars][project_id][value] = gcp_project_id`.
`none` models the KeyError/TypeError Python raises when the nested
structure is missing. -/
def set_project_id_var (d : Dict) (gcp_project_id : String) : Option Dict :=
  match dictGet d "vars" with
  | some (Val.dict dv) =>
    match dictGet dv "project_id" with
    | some (Val.dict pv) =>
      some (dictSet d "vars" (Val.dict (dictSet dv "project_id"
        (Val.dict (dictSet pv "value" (Val.str gcp_project_id))))))
    | _ => none
  | _ => none

/-- Lines 95-102: substitute parent policy id, name and project id into the
integration policy, strip server-assigned keys, and return the body POSTed to
the Fleet API. -/
def create_integration_policy (gcp_project_id agent_policy_id : String)
    (integration_policy : Dict) : Option Dict :=
  let d1 := dictSet integration_policy "policy_id" (Val.str agent_policy_id)
  let d2 := dictSet d1 "name" (Val.str gcp_project_id)
  match set_project_id_var d2 gcp_project_id with
  | some d3 => some (prep_integration_policy d3)
  | none => none

/-- Lines 124-133: the body PUT to the Fleet API by
`update_integration_policy`; the mutation sequence on the master template
(lines 128-131) is identical to the one in `create_integration_policy`. -/
def update_integration_policy_body (gcp_project_id agent_policy_id : String)
    (master_integration_policy : Dict) : Option Dict :=
  let d1 := dictSet master_integration_policy "policy_id" (Val.str agent_policy_id)
  let d2 := dictSet d1 "name" (Val.str gcp_project_id)
  match set_project_id_var d2 gcp_project_id with
  | some d3 => some (prep_integration_policy d3)
  | none => none

/-- Lines 277-278: `[x for x in primary_list if x not in secondary_list]`. -/
def get_list_diffs (primary_list secondary_list : List String) : List String :=
  primary_list.filter (fun x => decide (x ∉ secondary_list))

/-- Python `[*agent_gcp_projects]`: the dict keys, in insertion order. -/
def dictKeys (m : List (String × String)) : List String :=
  m.map (fun p => p.1)

/-- Reading `agent_gcp_projects[project]` from the project → package-policy-id
map. -/
def mapLookup (m : List (String × String)) (k : String) : Option String :=
  (m.find? (fun p => p.1 == k)).map (fun p => p.2)

/-- Lines 200-209: the list of GCP projects for which a create
(`deploy_integration`) is submitted, one per element in order.  Note the code
diffs `active` only against the current keys: the ignore list is not consulted
here, and no deduplication happens. -/
def create_integrations_by_gcp_project_id (agent_gcp_projects : List (String × String))
    (active_gcp_projects : List String) : List String :=
  get_list_diffs active_gcp_projects (dictKeys agent_gcp_projects)

/-- Lines 182-197: the deleted-projects list together with the package policy
ids the delete requests are submitted against, one request per element in
order. -/
def delete_integrations_by_gcp_project_id (agent_gcp_projects : List (String × String))
    (active_gcp_projects gcp_projects_to_ignore : List String) :
    List String × List (Option String) :=
  let deleted1 := get_list_diffs (dictKeys agent_gcp_projects) active_gcp_projects
  let deleted_gcp_projects := get_list_diffs deleted1 gcp_projects_to_ignore
  (deleted_gcp_projects,
   deleted_gcp_projects.map (fun project => mapLookup agent_gcp_projects project))

/-- Modelled from the spec, section 4.2: the specification text's `toCreate`,
namely the deduplicated elements of `active` that are not keys of `current`,
minus `ignore`, in `active`'s iteration order.  Stated only to compare the
spec's contract against the code's behaviour. -/
def spec_toCreate (active : List String) (current : List (String × String))
    (ignore : List String) : List String :=
  ((active.dedup).filter (fun x => decide (x ∉ dictKeys current))).filter
    (fun x => decide (x ∉ ignore))

/-- Statements executed against the `policy` table of `policy.db` that change
its data.  `CREATE TABLE IF NOT EXISTS` is schema-only and not traced. -/
inductive DBWrite where
  | insertRevision : Int → DBWrite
  | updateRevision : Int → DBWrite
deriving DecidableEq

/-- Lines 38-47: read the stored revision rows; on an empty table insert the
current revision and report `false`; otherwise report whether the first row
differs from the current revision.  Returns the table contents after the call,
the trace of data writes issued, and the boolean result. -/
def is_master_policy_updated (db : List Int) (current_revision : Int) :
    List Int × List DBWrite × Bool :=
  match db with
  | [] => ([current_revision], [DBWrite.insertRevision current_revision], false)
  | r :: rest => (r :: rest, [], decide (r ≠ current_revision))

/-- One invocation of `update_integration_policy` as issued by the sync loop
(lines 172-175): the project, the parent agent policy id, and the package
policy id looked up in `agent_gcp_projects`. -/
structure UpdateCall where
  gcp_project_id : String
  agent_policy_id : String
  package_policy_id : Option String
deriving DecidableEq

/-- Lines 158-179: revision-gated sync.  When `is_master_policy_updated`
reports a change, one `update_integration_policy` call is issued per project
in `current.keys` minus `deleted` minus `ignore`; in every case the function
ends with `UPDATE policy SET revision = ?` (line 179), which overwrites every
row of the table.  Returns the table contents after the run, the trace of data
writes, and the update calls issued. -/
def sync_master_integration (db : List Int) (master_policy_revision : Int)
    (agent_policy_id : String) (agent_gcp_projects : List (String × String))
    (deleted_gcp_projects gcp_projects_to_ignore : List String) :
    List Int × List DBWrite × List UpdateCall :=
  let step := is_master_policy_updated db master_policy_revision
  let calls :=
    if step.2.2 then
      let remaining1 := get_list_diffs (dictKeys agent_gcp_projects) deleted_gcp_projects
      let remaining_gcp_projects := get_list_diffs remaining1 gcp_projects_to_ignore
      remaining_gcp_projects.map (fun project =>
        { gcp_project_id := project
          agent_policy_id := agent_policy_id
          package_policy_id := mapLookup agent_gcp_projects project })
    else []
  (step.1.map (fun _ => master_policy_revision),
   step.2.1 ++ [DBWrite.updateRevision master_policy_revision],
   calls)

/-- Line 244 context: one stream of an input, `data_stream.type` and
`data_stream.dataset`. -/
structure DataStream where
  datatype : String
  dataset : String
deriving DecidableEq

/-- One element of `pp[inputs]`. -/
structure PPInput where
  enabled : Bool
  streams : List DataStream
deriving DecidableEq

/-- One element of `policy[item][package_policies]`, restricted to the fields
`inspect_agent_policy` reads: `package.name`, `name`,
`vars.project_id.value`, `id` and `inputs`. -/
structure PackagePolicy where
  package_name : String
  name : String
  project_id_value : String
  id : String
  inputs : List PPInput
deriving DecidableEq

/-- Lines 266-267: `if gcp_project_name not in agent_gcp_projects.keys():
agent_gcp_projects[gcp_project_name] = package_policy_id`. -/
def insertIfAbsent (m : List (String × String)) (k v : String) :
    List (String × String) :=
  if m.any (fun p => p.1 == k) then m else m ++ [(k, v)]

/-- Lines 241-267, inner loop over `pp[inputs]` for one GCP package policy:
for each enabled input the code reads `inp[streams][0]` (an IndexError — here
`none` — when `streams` is empty) and then records the project id → package
policy id binding if absent.  The report-building statements (lines 244-263)
only touch the observational `policy_hierarchy` and are omitted. -/
def inspect_inputs (gcp_project_name package_policy_id : String) :
    List PPInput → List (String × String) → Option (List (String × String))
  | [], m => some m
  | inp :: rest, m =>
    if inp.enabled then
      match inp.streams.head? with
      | none => none
      | some _ =>
        inspect_inputs gcp_project_name package_policy_id rest
          (insertIfAbsent m gcp_project_name package_policy_id)
    else
      inspect_inputs gcp_project_name package_policy_id rest m

/-- Lines 233-267, outer loop over `policy[item][package_policies]`: only
package policies whose `package.name` is `gcp` are inspected. -/
def inspect_agent_policy :
    List PackagePolicy → List (String × String) → Option (List (String × String))
  | [], m => some m
  | pp :: rest, m =>
    if pp.package_name == "gcp" then
      match inspect_inputs pp.project_id_value pp.id pp.inputs m with
      | none => none
      | some m2 => inspect_agent_policy rest m2
    else
      inspect_agent_policy rest m

/-- Modelled from the spec, section 4.1: record every configuration object of
the managed-integration kind first-wins, regardless of its inputs.  Stated
only to compare the spec's contract against the code's behaviour. -/
def spec_inspect_first_wins (pps : List PackagePolicy) : List (String × String) :=
  pps.foldl (fun m pp =>
    if pp.package_name == "gcp" then insertIfAbsent m pp.project_id_value pp.id else m) []

/-- Lines 137-141: the log line produced for one write request; the function
only prints, so the caller continues regardless of the status. -/
def check_http_status_code (status_code : Nat) (message : String) : String :=
  if status_code == 200 then message ++ " succeeded\n" else message ++ " failed\n"

/-- Lines 207-209, the create loop: one `deploy_integration` request is
submitted per project in order; `st` is the oracle giving each request's HTTP
status.  Returns the submitted projects and the per-key log lines. -/
def run_create_loop (st : String → Nat) : List String → List String × List String
  | [] => ([], [])
  | project :: rest =>
    let log := check_http_status_code (st project) "Create integration policy"
    let r := run_create_loop st rest
    (project :: r.1, log :: r.2)

/-- Lines 194-196, the delete loop: one `delete_integration_policy` request is
submitted per project in order, against `agent_gcp_projects[project]`.
Returns the submitted package policy ids and the per-key log lines. -/
def run_delete_loop (st : String → Nat) (agent_gcp_projects : List (String × String)) :
    List String → List (Option String) × List String
  | [] => ([], [])
  | project :: rest =>
    let req := mapLookup agent_gcp_projects project
    let log := check_http_status_code (st project) "Delete integration policy"
    let r := run_delete_loop st agent_gcp_projects rest
    (req :: r.1, log :: r.2)

/-- Lines 302-306 of `check_configuration`: the optional
`GCP_PROJECTS_TO_IGNORE` variable becomes the one-element list `[value]`;
when that single element is the empty string the list is reset to `[]`;
an absent variable leaves the default `[]`. -/
def check_configuration_ignore : Option String → List String
  | none => []
  | some v =>
    let l := [v]
    if (l.any (fun e => e.length == 0)) && (l.length == 1) then [] else l

/-- One item of the agent-policy query response: its `revision` and its
`package_policies` (integration policy bodies). -/
structure PolicyItem where
  revision : Int
  package_policies : List Dict

/-- The full master agent policy response, `mp[items]`. -/
structure MasterPolicy where
  items : List PolicyItem

/-- Lines 151-155: memoized fetch of the master agent policy.  `cache` is the
global `master_agent_policy` (`none` models the falsy `{}`), `fetched` is what
`get_policy_by_query` would return.  Returns the value used and the cache
afterwards. -/
def get_master_policy (fetched : MasterPolicy) (cache : Option MasterPolicy) :
    MasterPolicy × Option MasterPolicy :=
  match cache with
  | none => (fetched, some fetched)
  | some mp => (mp, some mp)

/-- Replace `mp[items][0][package_policies][0]` — the slot
`deploy_integration` takes its alias from — with `body`, modelling the Python
in-place mutation writing through the alias into the cached object. -/
def set_first_template (mp : MasterPolicy) (body : Dict) : MasterPolicy :=
  match mp.items with
  | [] => ⟨[]⟩
  | item :: rest =>
    ⟨{ item with package_policies :=
        match item.package_policies with
        | [] => []
        | _ :: ps => body :: ps } :: rest⟩

/-- Lines 108-115: fetch the (memoized) master policy, take the alias
`mp[items][0][package_policies][0]`, and submit it through
`create_integration_policy`, which mutates the aliased dict in place; the
cache therefore ends up holding the submitted body in that slot.  `none`
models the IndexError/KeyError paths. -/
def deploy_integration (fetched : MasterPolicy) (agent_policy_id gcp_project_id : String)
    (cache : Option MasterPolicy) : Option (Dict × Option MasterPolicy) :=
  let g := get_master_policy fetched cache
  match g.1.items.head? with
  | none => none
  | some item =>
    match item.package_policies.head? with
    | none => none
    | some master_integration_policy =>
      match create_integration_policy gcp_project_id agent_policy_id
          master_integration_policy with
      | none => none
      | some body => some (body, some (set_first_template g.1 body))

/-- Keys of the state after a successful apply pass, written the way claim C8
words it: `current`'s keys plus `toCreate`, minus `toDelete`. -/
def applied_state_keys (m : List (String × String)) (active ignore : List String) :
    List String :=
  (dictKeys m ++ create_integrations_by_gcp_project_id m active).filter
    (fun k => decide (k ∉ (delete_integrations_by_gcp_project_id m active ignore).1))

/-! Basic lemmas about the diff and map primitives. -/

theorem mem_get_list_diffs (p s : List String) (x : String) :
    x ∈ get_list_diffs p s ↔ x ∈ p ∧ x ∉ s := by
  simp [get_list_diffs, List.mem_filter]

theorem get_list_diffs_sublist (p s : List String) :
    (get_list_diffs p s).Sublist p :=
  List.filter_sublist p

theorem count_get_list_diffs (p s : List String) (x : String) :
    (get_list_diffs p s).count x = if x ∈ s then 0 else p.count x := by
  by_cases h : x ∈ s
  · simp only [h, if_true]
    refine List.count_eq_zero.2 (fun hx => ?_)
    exact ((mem_get_list_diffs p s x).1 hx).2 h
  · simp only [h, if_false]
    exact List.count_filter (by simpa using h)

theorem dictGet_cons (ak : String) (av : Val) (d : Dict) (k : String) :
    dictGet ((ak, av) :: d) k = if ak = k then some av else dictGet d k := by
  by_cases h : ak = k
  · subst h
    simp [dictGet, List.find?_cons]
  · have hb : (ak == k) = false := by simpa using h
    simp [dictGet, List.find?_cons, hb, h]

theorem dictPop_cons (ak : String) (av : Val) (d : Dict) (j : String) :
    dictPop ((ak, av) :: d) j =
      if ak = j then dictPop d j else (ak, av) :: dictPop d j := by
  rw [dictPop, List.filter_cons]
  by_cases h : ak = j <;> simp [h, dictPop]

theorem dictGet_dictPop (d : Dict) (j k : String) :
    dictGet (dictPop d j) k = if k = j then none else dictGet d k := by
  induction d with
  | nil => by_cases h : k = j <;> simp [h, dictGet, dictPop]
  | cons a d ih =>
    obtain ⟨ak, av⟩ := a
    rw [dictPop_cons]
    by_cases haj : ak = j
    · subst haj
      rw [if_pos rfl, ih, dictGet_cons]
      by_cases hkj : k = ak
      · simp [hkj]
      · have hne : ¬ ak = k := fun h2 => hkj h2.symm
        simp [hkj, hne]
    · rw [if_neg haj, dictGet_cons, dictGet_cons, ih]
      by_cases hak : ak = k
      · subst hak
        simp [haj]
      · simp [hak]

theorem dictGet_prep_mem (d : Dict) (k : String) (h : k ∈ strippedKeys) :
    dictGet (prep_integration_policy d) k = none := by
  simp only [strippedKeys, List.mem_cons, List.not_mem_nil, or_false] at h
  simp only [prep_integration_policy, strippedKeys, List.foldl]
  rcases h with h | h | h | h | h | h | h <;> subst h <;>
    simp [dictGet_dictPop]

theorem dictGet_prep_not_mem (d : Dict) (k : String) (h : k ∉ strippedKeys) :
    dictGet (prep_integration_policy d) k = dictGet d k := by
  simp only [strippedKeys, List.mem_cons, List.not_mem_nil, or_false, not_or] at h
  obtain ⟨h1, h2, h3, h4, h5, h6, h7⟩ := h
  simp [prep_integration_policy, strippedKeys, List.foldl, dictGet_dictPop,
    h1, h2, h3, h4, h5, h6, h7]

theorem mapLookup_cons (ak av : String) (m : List (String × String)) (k : String) :
    mapLookup ((ak, av) :: m) k = if ak = k then some av else mapLookup m k := by
  by_cases h : ak = k
  · subst h
    simp [mapLookup, List.find?_cons]
  · have hb : (ak == k) = false := by simpa using h
    simp [mapLookup, List.find?_cons, hb, h]

theorem mapLookup_isSome_of_mem_keys (m : List (String × String)) (k : String)
    (h : k ∈ dictKeys m) : ∃ v, mapLookup m k = some v := by
  induction m with
  | nil => simp [dictKeys] at h
  | cons a m ih =>
    obtain ⟨ak, av⟩ := a
    rw [mapLookup_cons]
    by_cases hak : ak = k
    · exact ⟨av, by simp [hak]⟩
    · simp only [dictKeys, List.map_cons, List.mem_cons] at h
      rcases h with h | h

      · exact absurd h.symm hak
      · simpa [hak] using ih h

/-- Claim C1: refuted as stated.  On `active = [p1, p1]`, `current = ∅`,
`ignore = [p1]` the spec's `toCreate` is empty (dedup plus ignore), but the
code submits a create for `p1` twice: the create path never consults the
ignore list and never deduplicates. -/
theorem claim_C1_counterexample :
    create_integrations_by_gcp_project_id [] ["p1", "p1"] = ["p1", "p1"] ∧
    spec_toCreate ["p1", "p1"] [] ["p1"] = [] ∧
    (["p1", "p1"] : List String) ≠ [] := by
  refine ⟨by decide, by decide, by decide⟩

/-- Claim C1 (amended): the list of creates submitted equals the elements of
`active` that are not keys of `current`, in `active`'s iteration order; the
ignore set is not consulted (an ignored key that is active and absent from
`current` is still submitted), and duplicates in `active` are not eliminated
(each occurrence of a key not in `current` produces one create). -/
theorem claim_C1 (active : List String) (current : List (String × String))
    (ignore : List String) :
    (∀ k, (create_integrations_by_gcp_project_id current active).count k =
      if k ∈ dictKeys current then 0 else active.count k) ∧
    (∀ k, k ∈ ignore → k ∈ active → k ∉ dictKeys current →
      k ∈ create_integrations_by_gcp_project_id current active) ∧
    (create_integrations_by_gcp_project_id current active).Sublist active := by
  refine ⟨fun k => ?_, fun k _ hka hkc => ?_, get_list_diffs_sublist _ _⟩
  · exact count_get_list_diffs active (dictKeys current) k
  · exact (mem_get_list_diffs active (dictKeys current) k).2 ⟨hka, hkc⟩

theorem claim_C1_witness :
    "p1" ∈ create_integrations_by_gcp_project_id [("p2", "idB")] ["p1"] :=
  (claim_C1 ["p1"] [("p2", "idB")] ["p1"]).2.1 "p1" (by decide) (by decide) (by decide)

theorem mem_deleted_iff (m : List (String × String)) (active ignore : List String)
    (k : String) :
    k ∈ (delete_integrations_by_gcp_project_id m active ignore).1 ↔
      k ∈ dictKeys m ∧ k ∉ active ∧ k ∉ ignore := by
  constructor
  · intro hk
    have h2 := (mem_get_list_diffs _ _ k).1 hk
    have h1 := (mem_get_list_diffs _ _ k).1 h2.1
    exact ⟨h1.1, h1.2, h2.2⟩
  · intro ⟨h1, h2, h3⟩
    exact (mem_get_list_diffs _ _ k).2 ⟨(mem_get_list_diffs _ _ k).2 ⟨h1, h2⟩, h3⟩

/-- Claim C4: confirmed.  The deleted list consists exactly of the keys of
`current` that are neither active nor ignored, in `current`'s key order
(a sublist of the key sequence), and one delete request is submitted per
element, against the package policy id stored in `current` for that key. -/
theorem claim_C4 (m : List (String × String)) (active ignore : List String) :
    (∀ k, k ∈ (delete_integrations_by_gcp_project_id m active ignore).1 ↔
      k ∈ dictKeys m ∧ k ∉ active ∧ k ∉ ignore) ∧
    (delete_integrations_by_gcp_project_id m active ignore).1.Sublist (dictKeys m) ∧
    (delete_integrations_by_gcp_project_id m active ignore).2 =
      (delete_integrations_by_gcp_project_id m active ignore).1.map
        (fun k => mapLookup m k) ∧
    (∀ k, k ∈ (delete_integrations_by_gcp_project_id m active ignore).1 →
      ∃ v, mapLookup m k = some v) := by
  refine ⟨mem_deleted_iff m active ignore, ?_, rfl, fun k hk => ?_⟩
  · exact (get_list_diffs_sublist _ _).trans (get_list_diffs_sublist _ _)
  · have h2 := (mem_get_list_diffs _ _ k).1 hk
    have h1 := (mem_get_list_diffs _ _ k).1 h2.1
    exact mapLookup_isSome_of_mem_keys m k h1.1

theorem claim_C4_witness :
    ∃ v, mapLookup [("p4", "id-d")] "p4" = some v :=
  (claim_C4 [("p4", "id-d")] ["p1"] []).2.2.2 "p4" (by decide)

/-- Claim C8: confirmed.  If every create and delete succeeded, the next run's
diff over the resulting key set (current keys plus the created keys, minus the
deleted keys) against the same `active` and `ignore` produces no creates and
no deletes. -/
theorem claim_C8 (m : List (String × String)) (active ignore : List String) :
    create_integrations_by_gcp_project_id
      ((applied_state_keys m active ignore).map (fun k => (k, ""))) active = [] ∧
    (delete_integrations_by_gcp_project_id
      ((applied_state_keys m active ignore).map (fun k => (k, ""))) active ignore).1 = [] := by
  have hkeys : dictKeys ((applied_state_keys m active ignore).map (fun k => (k, ""))) =
      applied_state_keys m active ignore := by
    rw [dictKeys, List.map_map]
    exact List.map_id (applied_state_keys m active ignore)
  have mem_applied : ∀ x, x ∈ applied_state_keys m active ignore ↔
      (x ∈ dictKeys m ∨ (x ∈ active ∧ x ∉ dictKeys m)) ∧
      ¬(x ∈ dictKeys m ∧ x ∉ active ∧ x ∉ ignore) := by
    intro x
    simp only [applied_state_keys, List.mem_filter, List.mem_append,
      decide_eq_true_eq]
    constructor
    · intro ⟨h1, h2⟩
      refine ⟨?_, fun hc => h2 ((mem_deleted_iff m active ignore x).2 hc)⟩
      rcases h1 with h | h
      · exact Or.inl h
      · exact Or.inr ((mem_get_list_diffs _ _ x).1 h)
    · intro ⟨h1, h2⟩
      refine ⟨?_, fun hc => h2 ((mem_deleted_iff m active ignore x).1 hc)⟩
      rcases h1 with h | h
      · exact Or.inl h
      · exact Or.inr ((mem_get_list_diffs _ _ x).2 h)
  constructor
  · rw [create_integrations_by_gcp_project_id, hkeys]
    refine List.filter_eq_nil_iff.2 (fun x hx => ?_)
    simp only [decide_eq_true_eq, not_not]
    refine (mem_applied x).2 ⟨?_, ?_⟩
    · by_cases hm : x ∈ dictKeys m
      · exact Or.inl hm
      · exact Or.inr ⟨hx, hm⟩
    · intro ⟨_, hna, _⟩
      exact hna hx
  · rw [delete_integrations_by_gcp_project_id]
    simp only
    refine List.filter_eq_nil_iff.2 (fun x hx => ?_)
    simp only [decide_eq_true_eq, not_not]
    have hx1 := (mem_get_list_diffs _ _ x).1 hx
    rw [hkeys] at hx1
    have hm := (mem_applied x).1 hx1.1
    by_contra hni
    rcases hm.1 with hk | ⟨ha, _⟩
    · exact hm.2 ⟨hk, hx1.2, hni⟩
    · exact hx1.2 ha

theorem sync_master_integration_eq (db : List Int) (rev : Int) (apid : String)
    (m : List (String × String)) (deleted ignore : List String) :
    sync_master_integration db rev apid m deleted ignore =
      match db with
      | [] => ([rev], [DBWrite.insertRevision rev, DBWrite.updateRevision rev], [])
      | r0 :: t =>
        ((r0 :: t).map (fun _ => rev), [DBWrite.updateRevision rev],
         if r0 = rev then [] else
           (get_list_diffs (get_list_diffs (dictKeys m) deleted) ignore).map
             (fun project => ⟨project, apid, mapLookup m project⟩)) := by
  cases db with
  | nil => rfl
  | cons r0 t =>
    by_cases h : r0 = rev
    · subst h
      simp [sync_master_integration, is_master_policy_updated]
    · simp [sync_master_integration, is_master_policy_updated, h]

/-- Claim C2: confirmed.  With the revision table empty (first-ever run) no
update calls are issued and the template revision is persisted; with the
stored revision equal to the template revision no update calls are issued;
with a differing stored revision exactly one update call is issued per key of
`current` minus `deleted` minus `ignore`, and the stored revision afterwards
equals the template revision. -/
theorem claim_C2 (rev r0 : Int) (t : List Int) (apid : String)
    (m : List (String × String)) (deleted ignore : List String)
    (hkeys : (dictKeys m).Nodup) :
    ((sync_master_integration [] rev apid m deleted ignore).2.2 = [] ∧
     (sync_master_integration [] rev apid m deleted ignore).1 = [rev]) ∧
    (sync_master_integration (rev :: t) rev apid m deleted ignore).2.2 = [] ∧
    (r0 ≠ rev →
      ((sync_master_integration (r0 :: t) rev apid m deleted ignore).2.2.map
        (fun c => c.gcp_project_id)).Nodup ∧
      (∀ k, k ∈ (sync_master_integration (r0 :: t) rev apid m deleted ignore).2.2.map
        (fun c => c.gcp_project_id) ↔
        k ∈ dictKeys m ∧ k ∉ deleted ∧ k ∉ ignore) ∧
      (sync_master_integration (r0 :: t) rev apid m deleted ignore).1.head? = some rev) := by
  have hsub := (get_list_diffs_sublist (get_list_diffs (dictKeys m) deleted) ignore).trans
    (get_list_diffs_sublist (dictKeys m) deleted)
  refine ⟨⟨rfl, rfl⟩, ?_, fun hne => ?_⟩
  · rw [sync_master_integration_eq]
    simp
  · rw [sync_master_integration_eq]
    simp only [if_neg hne]
    have hmm : ((get_list_diffs (get_list_diffs (dictKeys m) deleted) ignore).map
        (fun project => (⟨project, apid, mapLookup m project⟩ : UpdateCall))).map
        (fun c => c.gcp_project_id) =
        get_list_diffs (get_list_diffs (dictKeys m) deleted) ignore := by
      rw [List.map_map]
      exact List.map_id _
    rw [hmm]
    refine ⟨hsub.nodup hkeys, fun k => ?_, rfl⟩
    constructor
    · intro hk
      have h2 := (mem_get_list_diffs _ _ k).1 hk
      have h1 := (mem_get_list_diffs _ _ k).1 h2.1
      exact ⟨h1.1, h1.2, h2.2⟩
    · intro ⟨h1, h2, h3⟩
      exact (mem_get_list_diffs _ _ k).2 ⟨(mem_get_list_diffs _ _ k).2 ⟨h1, h2⟩, h3⟩

theorem claim_C2_witness :
    (sync_master_integration [] 7 "ap" [("p1", "a")] [] []).2.2 = [] :=
  (claim_C2 7 5 [] "ap" [("p1", "a")] [] [] (by decide)).1.1

/-- Claim C3: refuted as stated.  On a run where the stored revision equals
the template revision (stored 5, template 5) the code still executes
`UPDATE policy SET revision = ?` (line 179 runs unconditionally), so a write
to the revision store is issued. -/
theorem claim_C3_counterexample :
    (sync_master_integration [5] 5 "ap" [] [] []).2.1 = [DBWrite.updateRevision 5] ∧
    (sync_master_integration [5] 5 "ap" [] [] []).2.1 ≠ [] := by
  refine ⟨by decide, by decide⟩

/-- Claim C3 (amended): the stored revision is overwritten at the end of every
run, not only after a changed pass: the final data write of every run is
`UPDATE policy SET revision = r` with `r` the template revision (preceded by
the bootstrap insert on a first run); on a run where the stored revision
already equals the template revision the write is still issued but leaves the
stored value unchanged. -/
theorem claim_C3 (db : List Int) (rev : Int) (apid : String)
    (m : List (String × String)) (deleted ignore : List String) :
    (sync_master_integration db rev apid m deleted ignore).2.1.getLast? =
      some (DBWrite.updateRevision rev) ∧
    (db ≠ [] → (sync_master_integration db rev apid m deleted ignore).2.1 =
      [DBWrite.updateRevision rev]) ∧
    (db = [rev] → (sync_master_integration db rev apid m deleted ignore).1 = db) := by
  rw [sync_master_integration_eq]
  cases db with
  | nil => exact ⟨rfl, fun h => absurd rfl h, fun h => by cases h⟩
  | cons r0 t =>
    refine ⟨rfl, fun _ => rfl, fun h => ?_⟩
    cases h
    rfl

theorem claim_C3_witness :
    (sync_master_integration [7] 7 "ap" [] [] []).1 = [7] :=
  (claim_C3 [7] 7 "ap" [] [] []).2.2 rfl

theorem create_integration_policy_stripped (tmpl b : Dict) (pid apid : String)
    (h : create_integration_policy pid apid tmpl = some b) :
    ∀ k ∈ strippedKeys, dictGet b k = none := by
  intro k hk
  simp only [create_integration_policy] at h
  cases hs : set_project_id_var
      (dictSet (dictSet tmpl "policy_id" (Val.str apid)) "name" (Val.str pid)) pid with
  | none =>
    rw [hs] at h
    simp at h
  | some d3 =>
    rw [hs] at h
    simp only [Option.some.injEq] at h
    subst h
    exact dictGet_prep_mem d3 k hk

theorem update_integration_policy_body_stripped (tmpl b : Dict) (pid apid : String)
    (h : update_integration_policy_body pid apid tmpl = some b) :
    ∀ k ∈ strippedKeys, dictGet b k = none := by
  intro k hk
  simp only [update_integration_policy_body] at h
  cases hs : set_project_id_var
      (dictSet (dictSet tmpl "policy_id" (Val.str apid)) "name" (Val.str pid)) pid with
  | none =>
    rw [hs] at h
    simp at h
  | some d3 =>
    rw [hs] at h
    simp only [Option.some.injEq] at h
    subst h
    exact dictGet_prep_mem d3 k hk

/-- Claim C5: confirmed.  Any body submitted by the create path or by the
update path lacks all of `id`, `version`, `revision`, `created_at`,
`created_by`, `updated_at` and `updated_by`, whatever the source template
contained: `prep_integration_policy` is applied to the body right before
submission. -/
theorem claim_C5 (tmpl body : Dict) (pid apid : String) :
    (create_integration_policy pid apid tmpl = some body →
      ∀ k ∈ strippedKeys, dictGet body k = none) ∧
    (update_integration_policy_body pid apid tmpl = some body →
      ∀ k ∈ strippedKeys, dictGet body k = none) :=
  ⟨create_integration_policy_stripped tmpl body pid apid,
   update_integration_policy_body_stripped tmpl body pid apid⟩

theorem claim_C5_witness :
    dictGet [("vars", Val.dict [("project_id", Val.dict [("value", Val.str "p9")])]),
      ("policy_id", Val.str "ap"), ("name", Val.str "p9")] "id" = none :=
  (claim_C5 [("id", Val.str "x"),
      ("vars", Val.dict [("project_id", Val.dict [("value", Val.str "old")])])]
    [("vars", Val.dict [("project_id", Val.dict [("value", Val.str "p9")])]),
      ("policy_id", Val.str "ap"), ("name", Val.str "p9")] "p9" "ap").1 (by rfl)
    "id" (by decide)

theorem run_create_loop_eq (st : String → Nat) (l : List String) :
    run_create_loop st l =
      (l, l.map (fun p => check_http_status_code (st p) "Create integration policy")) := by
  induction l with
  | nil => rfl
  | cons a l ih => simp [run_create_loop, ih]

theorem run_delete_loop_eq (st : String → Nat) (m : List (String × String))
    (l : List String) :
    run_delete_loop st m l =
      (l.map (fun p => mapLookup m p),
       l.map (fun p => check_http_status_code (st p) "Delete integration policy")) := by
  induction l with
  | nil => rfl
  | cons a l ih => simp [run_delete_loop, ih]

/-- Claim C7: confirmed.  For any HTTP status oracle `st`, the create loop
submits one request per key of `toCreate` and the delete loop one request per
key of `toDelete` (against the stored package policy id), in order and
independently of the statuses returned for earlier keys, and each key gets its
own success/failure log line. -/
theorem claim_C7 (st : String → Nat) (m : List (String × String))
    (toCreate toDelete : List String) :
    (run_create_loop st toCreate).1 = toCreate ∧
    (run_create_loop st toCreate).2 =
      toCreate.map (fun p => check_http_status_code (st p) "Create integration policy") ∧
    (run_delete_loop st m toDelete).1 = toDelete.map (fun p => mapLookup m p) ∧
    (run_delete_loop st m toDelete).2 =
      toDelete.map (fun p => check_http_status_code (st p) "Delete integration policy") := by
  simp [run_create_loop_eq, run_delete_loop_eq]

theorem string_eq_empty_of_length_eq_zero (v : String) (h : v.length = 0) : v = "" := by
  cases v with
  | mk data =>
    cases data with
    | nil => rfl
    | cons c cs => simp [String.length] at h

/-- Claim C9: confirmed.  When `GCP_PROJECTS_TO_IGNORE` is set, the ignore
list is the single-element list holding the entire raw value (no splitting),
except that the empty string yields an empty list; the ignore list never has
more than one element. -/
theorem claim_C9 (v : String) (env : Option String) :
    (v ≠ "" → check_configuration_ignore (some v) = [v]) ∧
    check_configuration_ignore (some "") = [] ∧
    (check_configuration_ignore env).length ≤ 1 := by
  refine ⟨fun hv => ?_, rfl, ?_⟩
  · have hlen : (v.length == 0) = false := by
      by_cases h : v.length = 0
      · exact absurd (string_eq_empty_of_length_eq_zero v h) hv
      · simpa using h
    simp [check_configuration_ignore, hlen]
  · cases env with
    | none => simp [check_configuration_ignore]
    | some v =>
      simp only [check_configuration_ignore]
      split
      · simp
      · simp

theorem claim_C9_witness :
    check_configuration_ignore (some "proj-a") = ["proj-a"] :=
  (claim_C9 "proj-a" none).1 (by decide)

theorem any_key_eq_isSome (m : List (String × String)) (k : String) :
    m.any (fun p => p.1 == k) = (mapLookup m k).isSome := by
  induction m with
  | nil => rfl
  | cons a m ih =>
    obtain ⟨ak, av⟩ := a
    rw [List.any_cons, mapLookup_cons]
    by_cases h : ak = k
    · subst h
      simp
    · have hb : (ak == k) = false := by simpa using h
      simp [hb, h, ih]

theorem mapLookup_append_single (m : List (String × String)) (k v j : String) :
    mapLookup (m ++ [(k, v)]) j =
      (mapLookup m j <|> if k = j then some v else none) := by
  induction m with
  | nil =>
    simp only [List.nil_append]
    rw [mapLookup_cons]
    by_cases h : k = j <;> simp [h, mapLookup]
  | cons a m ih =>
    obtain ⟨ak, av⟩ := a
    rw [List.cons_append, mapLookup_cons, mapLookup_cons]
    by_cases h : ak = j
    · simp [h]
    · simp only [if_neg h]
      exact ih

theorem mapLookup_insertIfAbsent (m : List (String × String)) (k v j : String) :
    mapLookup (insertIfAbsent m k v) j =
      (mapLookup m j <|> if k = j then some v else none) := by
  rw [insertIfAbsent, any_key_eq_isSome]
  cases hm : mapLookup m k with
  | some w =>
    simp only [hm, Option.isSome_some, if_true]
    cases hj : mapLookup m j with
    | some u => simp
    | none =>
      by_cases hkj : k = j
      · subst hkj
        rw [hm] at hj
        cases hj
      · simp [hkj]
  | none =>
    simp only [hm, Option.isSome_none, Bool.false_eq_true, if_false]
    exact mapLookup_append_single m k v j

theorem insertIfAbsent_idem (m : List (String × String)) (k v : String) :
    insertIfAbsent (insertIfAbsent m k v) k v = insertIfAbsent m k v := by
  by_cases h : m.any (fun p => p.1 == k) = true
  · simp [insertIfAbsent, h]
  · have h2 : (m ++ [(k, v)]).any (fun p => p.1 == k) = true := by
      rw [List.any_append]
      simp
    simp [insertIfAbsent, h, h2]

theorem inspect_inputs_some (p pid : String) (inputs : List PPInput)
    (m0 m2 : List (String × String))
    (h : inspect_inputs p pid inputs m0 = some m2) :
    m2 = if inputs.any (fun i => i.enabled) then insertIfAbsent m0 p pid else m0 := by
  induction inputs generalizing m0 with
  | nil =>
    simp only [inspect_inputs, Option.some.injEq] at h
    simp [h.symm]
  | cons inp rest ih =>
    simp only [inspect_inputs] at h
    by_cases he : inp.enabled = true
    · rw [if_pos he] at h
      cases hs : inp.streams.head? with
      | none =>
        rw [hs] at h
        cases h
      | some s =>
        rw [hs] at h
        have hrec := ih _ h
        rw [List.any_cons, he]
        simp only [Bool.true_or, if_true]
        rw [hrec]
        by_cases hr : rest.any (fun i => i.enabled) = true
        · simp [hr, insertIfAbsent_idem]
        · simp [hr]
    · rw [if_neg he] at h
      have hrec := ih _ h
      have he2 : inp.enabled = false := by simpa using he
      rw [List.any_cons, he2]
      simpa using hrec

theorem inspect_agent_policy_lookup (pps : List PackagePolicy)
    (m0 m : List (String × String)) (k : String)
    (h : inspect_agent_policy pps m0 = some m) :
    mapLookup m k =
      (mapLookup m0 k <|>
        (pps.find? (fun pp => pp.package_name == "gcp" &&
          pp.inputs.any (fun i => i.enabled) && pp.project_id_value == k)).map
          (fun pp => pp.id)) := by
  induction pps generalizing m0 with
  | nil =>
    simp only [inspect_agent_policy, Option.some.injEq] at h
    subst h
    cases mapLookup m0 k <;> simp [List.find?]
  | cons pp rest ih =>
    simp only [inspect_agent_policy] at h
    rw [List.find?_cons]
    by_cases hg : (pp.package_name == "gcp") = true
    · rw [if_pos hg] at h
      cases hs : inspect_inputs pp.project_id_value pp.id pp.inputs m0 with
      | none =>
        rw [hs] at h
        cases h
      | some m1 =>
        rw [hs] at h
        have hm1 := inspect_inputs_some _ _ _ _ _ hs
        have hrec := ih _ h
        by_cases ha : (pp.inputs.any (fun i => i.enabled)) = true
        · by_cases hpk : pp.project_id_value = k
          · have hq : (pp.package_name == "gcp" && pp.inputs.any (fun i => i.enabled) &&
                pp.project_id_value == k) = true := by
              simp [hg, ha, hpk]
            rw [hq]
            rw [if_pos ha] at hm1
            subst hm1
            rw [mapLookup_insertIfAbsent, if_pos hpk] at hrec
            rw [hrec]
            cases mapLookup m0 k <;> simp
          · have hq : (pp.package_name == "gcp" && pp.inputs.any (fun i => i.enabled) &&
                pp.project_id_value == k) = false := by
              simp [hpk]
            rw [hq]
            rw [if_pos ha] at hm1
            subst hm1
            rw [mapLookup_insertIfAbsent, if_neg hpk] at hrec
            simpa using hrec
        · have hq : (pp.package_name == "gcp" && pp.inputs.any (fun i => i.enabled) &&
              pp.project_id_value == k) = false := by
            simp only [Bool.and_eq_true] at *
            simp [ha]
          rw [hq]
          rw [if_neg ha] at hm1
          subst hm1
          exact hrec
    · rw [if_neg hg] at h
      have hq : (pp.package_name == "gcp" && pp.inputs.any (fun i => i.enabled) &&
          pp.project_id_value == k) = false := by
        have hg2 : (pp.package_name == "gcp") = false := by
          cases hb : (pp.package_name == "gcp") with
          | false => rfl
          | true => exact absurd hb hg
        simp [hg2]
      rw [hq]
      exact ih _ h

/-- Claim C6: refuted as stated.  A package policy of the `gcp` kind whose
inputs list is empty (or has no enabled input) is attached to the policy but
never recorded: the insertion into `agent_gcp_projects` happens only inside
the loop over enabled inputs (lines 241-267), so the spec's unconditional
first-wins map differs from the code on such an object. -/
theorem claim_C6_counterexample :
    inspect_agent_policy [⟨"gcp", "n1", "p1", "id1", []⟩] [] = some [] ∧
    spec_inspect_first_wins [⟨"gcp", "n1", "p1", "id1", []⟩] = [("p1", "id1")] ∧
    ([] : List (String × String)) ≠ [("p1", "id1")] := by
  refine ⟨by decide, by decide, by decide⟩

/-- Claim C6 (amended): for every configuration object of the
managed-integration kind that has at least one enabled input, the inspector
records its resource key mapped to the identifier of the first such object
(gcp kind, at least one enabled input) seen for that key; later objects with
the same key do not change the mapping, and objects with no enabled input are
never recorded. -/
theorem claim_C6 (pps : List PackagePolicy) (m : List (String × String))
    (h : inspect_agent_policy pps [] = some m) (k : String) :
    mapLookup m k =
      (pps.find? (fun pp => pp.package_name == "gcp" &&
        pp.inputs.any (fun i => i.enabled) && pp.project_id_value == k)).map
        (fun pp => pp.id) := by
  have hinv := inspect_agent_policy_lookup pps [] m k h
  simpa [mapLookup] using hinv

theorem claim_C6_witness :
    mapLookup [("p1", "id1")] "p1" =
      (([⟨"gcp", "n1", "p1", "id1", [⟨true, [⟨"metrics", "billing"⟩]⟩]⟩] :
          List PackagePolicy).find? (fun pp => pp.package_name == "gcp" &&
        pp.inputs.any (fun i => i.enabled) && pp.project_id_value == "p1")).map
        (fun pp => pp.id) :=
  claim_C6 [⟨"gcp", "n1", "p1", "id1", [⟨true, [⟨"metrics", "billing"⟩]⟩]⟩]
    [("p1", "id1")] (by rfl) "p1"

/-- Claim C10: confirmed.  `prep_integration_policy` removes exactly the seven
server-assigned keys and leaves every other binding unchanged; the master
policy is memoized (a cached value is returned as-is, a first fetch fills the
cache); and after a successful `deploy_integration` the cache holds, in the
template slot `items[0].package_policies[0]` that the code aliases, exactly
the stripped, substituted body that was submitted, so later derived bodies
start from that overwritten object. -/
theorem claim_C10 (d : Dict) (k : String) (fetched mp : MasterPolicy)
    (apid pid : String) (body : Dict) (st2 : Option MasterPolicy) :
    (k ∈ strippedKeys → dictGet (prep_integration_policy d) k = none) ∧
    (k ∉ strippedKeys → dictGet (prep_integration_policy d) k = dictGet d k) ∧
    ((get_master_policy fetched (some mp)).1 = mp ∧
      get_master_policy fetched none = (fetched, some fetched)) ∧
    (deploy_integration fetched apid pid (some mp) = some (body, st2) →
      st2 = some (set_first_template mp body) ∧
      ((set_first_template mp body).items.head?.bind
        (fun item => item.package_policies.head?)) = some body ∧
      ∀ j ∈ strippedKeys, dictGet body j = none) := by
  refine ⟨dictGet_prep_mem d k, dictGet_prep_not_mem d k, ⟨rfl, rfl⟩, fun h => ?_⟩
  simp only [deploy_integration, get_master_policy] at h
  cases hit : mp.items with
  | nil =>
    rw [hit] at h
    simp at h
  | cons item rest =>
    rw [hit] at h
    simp only [List.head?] at h
    cases hpp : item.package_policies with
    | nil =>
      rw [hpp] at h
      simp at h
    | cons tmpl ps =>
      rw [hpp] at h
      simp only [List.head?] at h
      cases hc : create_integration_policy pid apid tmpl with
      | none =>
        rw [hc] at h
        simp at h
      | some b2 =>
        rw [hc] at h
        simp only [Option.some.injEq, Prod.mk.injEq] at h
        obtain ⟨hb, hst⟩ := h
        subst hb
        refine ⟨hst.symm, ?_, create_integration_policy_stripped tmpl b2 pid apid hc⟩
        simp [set_first_template, hit, hpp]

theorem claim_C10_witness :
    dictGet (prep_integration_policy [("id", Val.str "x"), ("foo", Val.str "y")]) "foo" =
      dictGet [("id", Val.str "x"), ("foo", Val.str "y")] "foo" :=
  (claim_C10 [("id", Val.str "x"), ("foo", Val.str "y")] "foo" ⟨[]⟩ ⟨[]⟩ "a" "p"
    [] none).2.1 (by decide)

end GcpFleetSync
